import Mathlib

/-
Verification of the `client-vs-http` load-generation harness
(`src/go/cmd/main.go`).

Shallow embedding notes:
- Go `int` values (threadsCount, secondsCount, lineProtocolsCount, tick
  sequence numbers) are modelled as `Int`; where the source performs
  arithmetic whose overflow behaviour matters to a claim (the `expected`
  product on line 53) the int64 wrap-around is modelled explicitly with
  `wrap64`.
- The worker goroutine `doLoad` is modelled as a deterministic function of
  an abstract stop schedule `stop : Nat → Bool`: the worker performs a
  sequence of channel polls (the Go `select`/`default` statements) and
  `stop c` is the value observed by the worker's c-th poll.  A closed
  channel makes every later receive ready, but the model allows arbitrary
  schedules, so every theorem quantified over `stop` also covers the
  schedules reachable in Go.
- The worker's observable behaviour is an event trace (`WEvent`): each
  channel poll, each backend submission, the progress print of worker 1,
  and the one-second pacing sleep.  Wall-clock time itself is not
  modelled.
- The harness `main` (after flag parsing) is modelled by `runMain`,
  sequentialized: the spawned workers' traces, the single deadline-timer
  signal, and then the post-`wg.Wait` counting/closing phase, exactly in
  the source's branching structure.  Go panics are modelled as the
  `.error` side of `Except`.
- The InfluxDB v1 adapter (`WriterV1.Write`, `WriterV1.Count`) is
  embedded from the source; the backend's responses are inputs (an
  outcome for each write, a `QueryOutcome` for the count query).  Cell
  values of a v1 query response are modelled by their `fmt.Sprintf` `%v`
  rendering, which is what the source feeds to `strconv.Atoi`.
-/

namespace ClientVsHttp

/-- Go errors and panic messages, by their message text. -/
abbrev GoErr := String

/-! ### StopSignal: the `stopExecution` channel -/

/-- The `stopExecution` channel (`make(chan bool)` in `main`): the only
state a claim depends on is whether it has been closed. -/
structure StopChan where
  closed : Bool
deriving DecidableEq

/-- Go `close(ch)`: closing an open channel closes it; closing an
already-closed channel panics (`close of closed channel`). -/
def closeChan (ch : StopChan) : Except GoErr StopChan :=
  if ch.closed then .error "close of closed channel"
  else .ok { closed := true }

/-- A (non-blocking) receive on the channel is ready exactly when the
channel has been closed. -/
def chanReady (ch : StopChan) : Bool :=
  ch.closed

/-! ### Worker: `doLoad` (main.go lines 127-153) -/

/-- Observable events of one worker run of `doLoad`. -/
inductive WEvent
  /-- One `select`/`default` poll of `stopExecution`; the flag records
  whether the stop signal was observed (the receive branch taken). -/
  | check (observed : Bool)
  /-- One call `influx.Write(id, measurementName, j)` with iteration `j`. -/
  | write (j : Int)
  /-- The progress print of worker id 1 before second `i`. -/
  | progress (i : Int)
  /-- The `time.Sleep(1s)` pacing pause after a completed second. -/
  | sleep
deriving DecidableEq

/-- The inner per-second loop `for j := start; j < end; j++` of `doLoad`:
before every single submission the worker polls `stopExecution` and
returns at once when the signal is observed.  Arguments: the stop
schedule, the index `c` of the worker's next poll, the next iteration
value `j`, and the remaining number of iterations (`end - j`).
Returns the emitted trace, the next poll index, and whether the stop
signal was observed (in which case `doLoad` returns). -/
def innerLoop (stop : Nat → Bool) (c : Nat) (j : Int) :
    Nat → List WEvent × Nat × Bool
  | 0 => ([], c, false)
  | fuel + 1 =>
    if stop c then ([WEvent.check true], c + 1, true)
    else
      let r := innerLoop stop (c + 1) (j + 1) fuel
      (WEvent.check false :: WEvent.write j :: r.1, r.2.1, r.2.2)

/-- The outer per-second loop `for i := 1; i <= secondsCount; i++` of
`doLoad`: polls `stopExecution` before starting a second's batch, prints
progress when `id == 1`, runs the inner loop (`start = i*L`,
`end = start + L`), and if not stopped sleeps one second and proceeds to
the next second. -/
def outerLoop (stop : Nat → Bool) (id : Int) (L : Int) (c : Nat) (i : Int) :
    Nat → List WEvent
  | 0 => []
  | fuel + 1 =>
    if stop c then [WEvent.check true]
    else
      let pro := if id = 1 then [WEvent.progress i] else []
      let r := innerLoop stop (c + 1) (i * L) L.toNat
      if r.2.2 then WEvent.check false :: pro ++ r.1
      else WEvent.check false :: pro ++ r.1 ++ WEvent.sleep :: outerLoop stop id L r.2.1 (i + 1) fuel

/-- `doLoad(wg, stopExecution, id, measurementName, secondsCount,
lineProtocolsCount, writer)`, as the trace of worker `id` under stop
schedule `stop`, with `S = secondsCount` and `L = lineProtocolsCount`.
The `wg.Done()` bookkeeping and the writer argument (whose `Write`
returns nothing, see `writerV1Write`) do not affect the trace. -/
def doLoad (stop : Nat → Bool) (id : Int) (S L : Int) : List WEvent :=
  outerLoop stop id L 0 1 S.toNat

/-- The iteration (tick sequence number) arguments of the submissions in
a worker trace, in submission order. -/
def writes (tr : List WEvent) : List Int :=
  tr.filterMap fun e =>
    match e with
    | WEvent.write j => some j
    | _ => none

example :
    writes (doLoad (fun _ => false) 1 2 3) = [3, 4, 5, 6, 7, 8] := by
  decide

example :
    writes (doLoad (fun c => 4 ≤ c) 2 2 3) = [3, 4, 5] := by
  decide

/-- `n` consecutive tick sequence numbers starting at `j`. -/
def ticksFrom (j : Int) (n : Nat) : List Int :=
  (List.range n).map fun k : Nat => j + (k : Int)

theorem writes_nil : writes [] = [] := rfl

theorem writes_cons_check (b : Bool) (tr : List WEvent) :
    writes (WEvent.check b :: tr) = writes tr := rfl

theorem writes_cons_write (j : Int) (tr : List WEvent) :
    writes (WEvent.write j :: tr) = j :: writes tr := rfl

theorem writes_cons_progress (i : Int) (tr : List WEvent) :
    writes (WEvent.progress i :: tr) = writes tr := rfl

theorem writes_cons_sleep (tr : List WEvent) :
    writes (WEvent.sleep :: tr) = writes tr := rfl

theorem writes_append (l1 l2 : List WEvent) :
    writes (l1 ++ l2) = writes l1 ++ writes l2 := by
  simp [writes]

theorem ticksFrom_zero (j : Int) : ticksFrom j 0 = [] := rfl

theorem ticksFrom_succ (j : Int) (n : Nat) :
    ticksFrom j (n + 1) = j :: ticksFrom (j + 1) n := by
  rw [ticksFrom, List.range_succ_eq_map, List.map_cons, List.map_map]
  congr 1
  · simp
  apply List.map_congr_left
  intro k _
  simp only [Function.comp_apply, Nat.succ_eq_add_one]
  push_cast
  ring

theorem ticksFrom_add (j : Int) (m n : Nat) :
    ticksFrom j (m + n) = ticksFrom j m ++ ticksFrom (j + m) n := by
  rw [ticksFrom, List.range_add, List.map_append, List.map_map]
  congr 1
  apply List.map_congr_left
  intro k _
  simp only [Function.comp_apply]
  push_cast
  ring

theorem ticksFrom_pairwise (j : Int) (n : Nat) :
    (ticksFrom j n).Pairwise (· < ·) := by
  rw [ticksFrom]
  exact (List.pairwise_lt_range n).map _ (fun a b h => by omega)

/-- Unfolding the inner loop one step when the stop signal is observed. -/
theorem innerLoop_succ_stop (stop : Nat → Bool) (c : Nat) (j : Int)
    (fuel : Nat) (h : stop c = true) :
    innerLoop stop c j (fuel + 1) = ([WEvent.check true], c + 1, true) := by
  simp [innerLoop, h]

/-- Unfolding the inner loop one step when the stop signal is absent. -/
theorem innerLoop_succ_go (stop : Nat → Bool) (c : Nat) (j : Int)
    (fuel : Nat) (h : stop c = false) :
    innerLoop stop c j (fuel + 1) =
      (WEvent.check false :: WEvent.write j ::
          (innerLoop stop (c + 1) (j + 1) fuel).1,
        (innerLoop stop (c + 1) (j + 1) fuel).2.1,
        (innerLoop stop (c + 1) (j + 1) fuel).2.2) := by
  simp [innerLoop, h]

/-- When the inner loop runs to completion (not stopped), it advanced the
poll counter by exactly `fuel` and submitted exactly the `fuel`
consecutive iterations starting at `j`. -/
theorem innerLoop_not_stopped :
    ∀ (fuel : Nat) (stop : Nat → Bool) (c : Nat) (j : Int),
      (innerLoop stop c j fuel).2.2 = false →
        (innerLoop stop c j fuel).2.1 = c + fuel ∧
          writes (innerLoop stop c j fuel).1 = ticksFrom j fuel := by
  intro fuel
  induction fuel with
  | zero => intro stop c j _; simp [innerLoop, ticksFrom_zero, writes_nil]
  | succ fuel ih =>
    intro stop c j h
    by_cases hs : stop c
    · rw [innerLoop_succ_stop stop c j fuel hs] at h
      simp at h
    · rw [innerLoop_succ_go stop c j fuel (by simpa using hs)] at h ⊢
      dsimp only at h ⊢
      obtain ⟨h1, h2⟩ := ih stop (c + 1) (j + 1) h
      refine ⟨by omega, ?_⟩
      rw [writes_cons_check, writes_cons_write, h2, ticksFrom_succ]

/-- The submissions of the inner loop, stopped early or not, form a
prefix of the `fuel` consecutive iterations starting at `j`. -/
theorem innerLoop_writes_isPre :
    ∀ (fuel : Nat) (stop : Nat → Bool) (c : Nat) (j : Int),
      writes (innerLoop stop c j fuel).1 <+: ticksFrom j fuel := by
  intro fuel
  induction fuel with
  | zero => intro stop c j; simp [innerLoop, writes_nil]
  | succ fuel ih =>
    intro stop c j
    by_cases hs : stop c
    · rw [innerLoop_succ_stop stop c j fuel hs]
      simp [writes_cons_check, writes_nil]
    · rw [innerLoop_succ_go stop c j fuel (by simpa using hs)]
      dsimp only
      rw [writes_cons_check, writes_cons_write, ticksFrom_succ]
      obtain ⟨t, ht⟩ := ih stop (c + 1) (j + 1)
      exact ⟨t, by rw [List.cons_append, ht]⟩

/-- The inner loop run under the never-signalled schedule does not stop. -/
theorem innerLoop_never_flag :
    ∀ (fuel : Nat) (c : Nat) (j : Int),
      (innerLoop (fun _ => false) c j fuel).2.2 = false := by
  intro fuel
  induction fuel with
  | zero => intro c j; rfl
  | succ fuel ih =>
    intro c j
    rw [innerLoop_succ_go _ c j fuel rfl]
    exact ih (c + 1) (j + 1)

theorem outerLoop_succ_stop (stop : Nat → Bool) (id L : Int) (c : Nat)
    (i : Int) (fuel : Nat) (h : stop c = true) :
    outerLoop stop id L c i (fuel + 1) = [WEvent.check true] := by
  simp [outerLoop, h]

theorem outerLoop_succ_inner_stop (stop : Nat → Bool) (id L : Int) (c : Nat)
    (i : Int) (fuel : Nat) (h : stop c = false)
    (h2 : (innerLoop stop (c + 1) (i * L) L.toNat).2.2 = true) :
    outerLoop stop id L c i (fuel + 1) =
      WEvent.check false :: (if id = 1 then [WEvent.progress i] else []) ++
        (innerLoop stop (c + 1) (i * L) L.toNat).1 := by
  simp [outerLoop, h, h2]

theorem outerLoop_succ_inner_go (stop : Nat → Bool) (id L : Int) (c : Nat)
    (i : Int) (fuel : Nat) (h : stop c = false)
    (h2 : (innerLoop stop (c + 1) (i * L) L.toNat).2.2 = false) :
    outerLoop stop id L c i (fuel + 1) =
      WEvent.check false :: (if id = 1 then [WEvent.progress i] else []) ++
        (innerLoop stop (c + 1) (i * L) L.toNat).1 ++
          WEvent.sleep ::
            outerLoop stop id L (innerLoop stop (c + 1) (i * L) L.toNat).2.1
              (i + 1) fuel := by
  simp [outerLoop, h, h2]

theorem writes_progressPart (id i : Int) :
    writes (if id = 1 then [WEvent.progress i] else []) = [] := by
  split <;> rfl

theorem writes_checkPro (b : Bool) (id i : Int) :
    writes ((WEvent.check b :: if id = 1 then [WEvent.progress i] else [])) = [] := by
  split <;> rfl

/-- A worker that never observes the stop signal submits, during its
seconds `i, i+1, ...`, exactly the consecutive sequence numbers starting
at `i * L`, `L` of them per second. -/
theorem outerLoop_writes_never :
    ∀ (fuel : Nat) (id L : Int) (c : Nat) (i : Int), 0 ≤ L →
      writes (outerLoop (fun _ => false) id L c i fuel)
        = ticksFrom (i * L) (fuel * L.toNat) := by
  intro fuel
  induction fuel with
  | zero => intro id L c i _; simp [outerLoop, writes_nil, ticksFrom_zero]
  | succ fuel ih =>
    intro id L c i hL
    rw [outerLoop_succ_inner_go _ id L c i fuel rfl
      (innerLoop_never_flag L.toNat (c + 1) (i * L))]
    simp only [writes_append, writes_checkPro, writes_cons_sleep,
      List.nil_append]
    rw [(innerLoop_not_stopped L.toNat _ (c + 1) (i * L)
      (innerLoop_never_flag L.toNat (c + 1) (i * L))).2]
    rw [ih id L _ (i + 1) hL]
    have hcast : ((L.toNat : Int)) = L := Int.toNat_of_nonneg hL
    have hn : (fuel + 1) * L.toNat = L.toNat + fuel * L.toNat := by ring
    rw [hn, ticksFrom_add]
    have hstart : i * L + (L.toNat : Int) = (i + 1) * L := by
      rw [hcast]; ring
    rw [hstart]

/-- Whatever the stop schedule, a worker's submissions form a prefix of
the full (never-stopped) consecutive sequence for its seconds. -/
theorem outerLoop_writes_isPre :
    ∀ (fuel : Nat) (stop : Nat → Bool) (id L : Int) (c : Nat) (i : Int),
      0 ≤ L →
      writes (outerLoop stop id L c i fuel) <+: ticksFrom (i * L) (fuel * L.toNat) := by
  intro fuel
  induction fuel with
  | zero =>
    intro stop id L c i _
    simp [outerLoop, writes_nil]
  | succ fuel ih =>
    intro stop id L c i hL
    have hcast : ((L.toNat : Int)) = L := Int.toNat_of_nonneg hL
    have hn : (fuel + 1) * L.toNat = L.toNat + fuel * L.toNat := by ring
    have hstart : i * L + (L.toNat : Int) = (i + 1) * L := by
      rw [hcast]; ring
    have hsplit : ticksFrom (i * L) ((fuel + 1) * L.toNat)
        = ticksFrom (i * L) L.toNat ++ ticksFrom ((i + 1) * L) (fuel * L.toNat) := by
      rw [hn, ticksFrom_add, hstart]
    by_cases hs : stop c
    · rw [outerLoop_succ_stop stop id L c i fuel hs]
      rw [writes_cons_check, writes_nil]
      exact List.nil_prefix
    · by_cases h2 : (innerLoop stop (c + 1) (i * L) L.toNat).2.2
      · rw [outerLoop_succ_inner_stop stop id L c i fuel (by simpa using hs) h2]
        simp only [writes_append, writes_checkPro, List.nil_append]
        rw [hsplit]
        obtain ⟨t, ht⟩ := innerLoop_writes_isPre L.toNat stop (c + 1) (i * L)
        exact ⟨t ++ ticksFrom ((i + 1) * L) (fuel * L.toNat),
          by rw [← List.append_assoc, ht]⟩
      · rw [outerLoop_succ_inner_go stop id L c i fuel (by simpa using hs)
          (by simpa using h2)]
        simp only [writes_append, writes_checkPro, writes_cons_sleep,
          List.nil_append]
        rw [(innerLoop_not_stopped L.toNat stop (c + 1) (i * L)
          (by simpa using h2)).2]
        obtain ⟨t, ht⟩ := ih stop id L
          (innerLoop stop (c + 1) (i * L) L.toNat).2.1 (i + 1) hL
        exact ⟨t, by rw [hsplit, List.append_assoc, ht]⟩

/-- Shape invariant of worker traces, as produced by `doLoad`: a trace is
a sequence of stop-signal polls, guarded submissions (a poll that read
`false` immediately followed by the submission), progress prints and
pacing sleeps, and the only way a poll can read `true` is as the very
last event (the worker returns at once). -/
inductive Polite : List WEvent → Prop
  | nil : Polite []
  | halt : Polite [WEvent.check true]
  | sleepy {tr : List WEvent} : Polite tr → Polite (WEvent.sleep :: tr)
  | prog {i : Int} {tr : List WEvent} :
      Polite tr → Polite (WEvent.progress i :: tr)
  | chk {tr : List WEvent} : Polite tr → Polite (WEvent.check false :: tr)
  | chkWr {j : Int} {tr : List WEvent} :
      Polite tr → Polite (WEvent.check false :: WEvent.write j :: tr)

/-- In a polite trace, every submission is immediately preceded by a poll
of the stop signal that observed no signal. -/
theorem polite_write_guard {tr : List WEvent} (h : Polite tr) :
    ∀ (pre : List WEvent) (j : Int) (post : List WEvent),
      tr = pre ++ WEvent.write j :: post →
        ∃ pre2, pre = pre2 ++ [WEvent.check false] := by
  induction h with
  | nil => intro pre j post he; simp at he
  | halt =>
    intro pre j post he
    cases pre with
    | nil => simp at he
    | cons a pre => simp at he
  | sleepy hp ih =>
    intro pre j post he
    cases pre with
    | nil => simp at he
    | cons a pre =>
      rw [List.cons_append] at he
      obtain ⟨ha, htr⟩ := List.cons.inj he
      obtain ⟨p2, hp2⟩ := ih pre j post htr
      exact ⟨a :: p2, by rw [hp2, List.cons_append]⟩
  | prog hp ih =>
    intro pre j post he
    cases pre with
    | nil => simp at he
    | cons a pre =>
      rw [List.cons_append] at he
      obtain ⟨ha, htr⟩ := List.cons.inj he
      obtain ⟨p2, hp2⟩ := ih pre j post htr
      exact ⟨a :: p2, by rw [hp2, List.cons_append]⟩
  | chk hp ih =>
    intro pre j post he
    cases pre with
    | nil => simp at he
    | cons a pre =>
      rw [List.cons_append] at he
      obtain ⟨ha, htr⟩ := List.cons.inj he
      cases pre with
      | nil => exact ⟨[], by rw [← ha]; rfl⟩
      | cons b pre =>
        obtain ⟨p2, hp2⟩ := ih (b :: pre) j post htr
        exact ⟨a :: p2, by rw [hp2, List.cons_append]⟩
  | chkWr hp ih =>
    intro pre j post he
    cases pre with
    | nil => simp at he
    | cons a pre =>
      rw [List.cons_append] at he
      obtain ⟨ha, htr⟩ := List.cons.inj he
      cases pre with
      | nil => exact ⟨[], by rw [← ha]; rfl⟩
      | cons b pre =>
        rw [List.cons_append] at htr
        obtain ⟨hb, htr2⟩ := List.cons.inj htr
        obtain ⟨p2, hp2⟩ := ih pre j post htr2
        exact ⟨a :: b :: p2, by rw [hp2]; rfl⟩

/-- In a polite trace, a poll that observed the stop signal is the last
event: after observing the signal the worker neither submits again nor
starts a new per-second batch. -/
theorem polite_stop_last {tr : List WEvent} (h : Polite tr) :
    ∀ (pre post : List WEvent),
      tr = pre ++ WEvent.check true :: post → post = [] := by
  induction h with
  | nil => intro pre post he; simp at he
  | halt =>
    intro pre post he
    cases pre with
    | nil => simpa using (List.cons.inj he).2.symm
    | cons a pre =>
      rw [List.cons_append] at he
      obtain ⟨ha, htr⟩ := List.cons.inj he
      simp at htr
  | sleepy hp ih =>
    intro pre post he
    cases pre with
    | nil => simp at he
    | cons a pre =>
      rw [List.cons_append] at he
      exact ih pre post (List.cons.inj he).2
  | prog hp ih =>
    intro pre post he
    cases pre with
    | nil => simp at he
    | cons a pre =>
      rw [List.cons_append] at he
      exact ih pre post (List.cons.inj he).2
  | chk hp ih =>
    intro pre post he
    cases pre with
    | nil => simp at he
    | cons a pre =>
      rw [List.cons_append] at he
      exact ih pre post (List.cons.inj he).2
  | chkWr hp ih =>
    intro pre post he
    cases pre with
    | nil => simp at he
    | cons a pre =>
      rw [List.cons_append] at he
      obtain ⟨ha, htr⟩ := List.cons.inj he
      cases pre with
      | nil => simp at htr
      | cons b pre =>
        rw [List.cons_append] at htr
        exact ih pre post (List.cons.inj htr).2

/-- The inner loop produces polite traces: when stopped its trace is
polite and closed (ends at the observation); when not stopped its trace
is polite in front of any polite continuation. -/
theorem innerLoop_polite :
    ∀ (fuel : Nat) (stop : Nat → Bool) (c : Nat) (j : Int),
      ((innerLoop stop c j fuel).2.2 = true →
        Polite (innerLoop stop c j fuel).1)
      ∧ ((innerLoop stop c j fuel).2.2 = false →
        ∀ rest, Polite rest → Polite ((innerLoop stop c j fuel).1 ++ rest)) := by
  intro fuel
  induction fuel with
  | zero =>
    intro stop c j
    refine ⟨fun h => by simp [innerLoop] at h, fun _ rest hr => ?_⟩
    simpa [innerLoop] using hr
  | succ fuel ih =>
    intro stop c j
    by_cases hs : stop c
    · rw [innerLoop_succ_stop stop c j fuel hs]
      exact ⟨fun _ => Polite.halt, fun h => by simp at h⟩
    · rw [innerLoop_succ_go stop c j fuel (by simpa using hs)]
      dsimp only
      refine ⟨fun h => ?_, fun h rest hr => ?_⟩
      · exact Polite.chkWr ((ih stop (c + 1) (j + 1)).1 h)
      · exact Polite.chkWr ((ih stop (c + 1) (j + 1)).2 h rest hr)

theorem polite_checkPro (id i : Int) {rest : List WEvent} (h : Polite rest) :
    Polite ((WEvent.check false :: if id = 1 then [WEvent.progress i] else [])
      ++ rest) := by
  by_cases hid : id = 1
  · rw [if_pos hid]
    exact Polite.chk (Polite.prog h)
  · rw [if_neg hid]
    exact Polite.chk h

/-- Every `doLoad` trace is polite. -/
theorem outerLoop_polite :
    ∀ (fuel : Nat) (stop : Nat → Bool) (id L : Int) (c : Nat) (i : Int),
      Polite (outerLoop stop id L c i fuel) := by
  intro fuel
  induction fuel with
  | zero => intro stop id L c i; exact Polite.nil
  | succ fuel ih =>
    intro stop id L c i
    by_cases hs : stop c
    · rw [outerLoop_succ_stop stop id L c i fuel hs]
      exact Polite.halt
    · by_cases h2 : (innerLoop stop (c + 1) (i * L) L.toNat).2.2
      · rw [outerLoop_succ_inner_stop stop id L c i fuel (by simpa using hs) h2]
        exact polite_checkPro id i
          ((innerLoop_polite L.toNat stop (c + 1) (i * L)).1 h2)
      · rw [outerLoop_succ_inner_go stop id L c i fuel (by simpa using hs)
          (by simpa using h2), List.append_assoc]
        exact polite_checkPro id i
          ((innerLoop_polite L.toNat stop (c + 1) (i * L)).2
            (by simpa using h2) _ (Polite.sleepy (ih stop id L _ (i + 1))))

/-! ### The InfluxDB v1 adapter (main.go lines 194-219) -/

/-- Observable events of one `WriterV1.Write` call. -/
inductive AEvent
  /-- The single `p.influx.Write(bp)` attempt for this tick. -/
  | batchWrite (id : Int) (iteration : Int)
  /-- A hypothetical log record for a failed submission.  `WriterV1.Write`
  never emits one: its error branch is an empty block. -/
  | logged (e : GoErr)
deriving DecidableEq

/-- `WriterV1.Write(id, measurementName, iteration)`: builds a one-point
batch and writes it; `writeFailed` is the outcome of the backend write
(`some e` = the write returned error `e`).  The source discards the
errors of `NewBatchPoints` and `NewPoint` (`_`), and its
`if err := p.influx.Write(bp); err != nil { }` has an empty body, so a
failed write produces no event beyond the attempt itself, is not
retried, and no error is returned (the function has no error result). -/
def writerV1Write (writeFailed : Option GoErr) (id : Int)
    (measurementName : String) (iteration : Int) : List AEvent :=
  [AEvent.batchWrite id iteration] ++
    (match writeFailed with
     | some _ => []
     | none => [])

/-- One series of an InfluxDB v1 query response; each cell value is
modelled by its `fmt.Sprintf` rendering with verb `%v` (which is what
`WriterV1.Count` feeds to `strconv.Atoi`). -/
structure V1Series where
  values : List (List String)
deriving DecidableEq

structure V1Result where
  series : List V1Series
deriving DecidableEq

/-- An InfluxDB v1 query response: a response-level error (the
`response.Error()` check) and the results array. -/
structure V1Response where
  err : Option GoErr
  results : List V1Result
deriving DecidableEq

/-- The outcome of `p.influx.Query(q)`: the transport either fails with
an error or delivers a response. -/
inductive QueryOutcome
  | fail (e : GoErr)
  | ok (resp : V1Response)
deriving DecidableEq

/-- Decimal digits to a number (the accumulator loop of `strconv.Atoi`,
overflow not modelled). -/
def digitsToNat (cs : List Char) : Nat :=
  cs.foldl (fun a c => a * 10 + (c.toNat - 48)) 0

/-- `strconv.Atoi` on the character list of its argument: an optional
sign followed by at least one decimal digit; anything else is a syntax
error. -/
def goAtoiChars (cs : List Char) : Except GoErr Int :=
  match cs with
  | [] => Except.error "invalid syntax"
  | c :: rest =>
    let body : List Char → Except GoErr Int := fun ds =>
      if ds.isEmpty then Except.error "invalid syntax"
      else if ds.all Char.isDigit then Except.ok (digitsToNat ds : Int)
      else Except.error "invalid syntax"
    if c = '-' then (body rest).map fun n => -n
    else if c = '+' then body rest
    else body (c :: rest)

/-- `strconv.Atoi`. -/
def goAtoi (s : String) : Except GoErr Int :=
  goAtoiChars s.data

/-- The unchecked access `response.Results[0].Series[0].Values[0][1]` of
`WriterV1.Count`, as an `Option`: `none` means some index is out of
range (a Go runtime panic). -/
def v1Access (resp : V1Response) : Option String :=
  resp.results[0]?.bind fun r =>
    r.series[0]?.bind fun s =>
      s.values[0]?.bind fun v => v[1]?

/-- `WriterV1.Count(measurementName)` applied to the backend's outcome
`q` for the count query.  The `.error` side of the outer `Except` is a
Go runtime panic (out-of-range indexing); the `.ok` side is the Go
return pair `(int, error)`.  Source: if the query transport fails or the
response carries an error, the guard
`err == nil && response.Error() == nil` falls through to `return 0, nil`;
otherwise the unchecked indexing runs and its cell is fed to
`strconv.Atoi`, whose pair is returned as is. -/
def writerV1Count (q : QueryOutcome) : Except GoErr (Int × Option GoErr) :=
  match q with
  | QueryOutcome.fail _ => Except.ok (0, none)
  | QueryOutcome.ok resp =>
    if resp.err.isSome then Except.ok (0, none)
    else
      match v1Access resp with
      | none => Except.error "runtime error: index out of range"
      | some cell =>
        match goAtoi cell with
        | Except.ok i => Except.ok (i, none)
        | Except.error e => Except.ok (0, some e)

/-! ### The harness: `main` after flag parsing (main.go lines 42-125) -/

/-- What a backend `Count` call looks like from the harness: a returned
count, a returned error (which `main` turns into `panic(err)`), or a Go
panic escaping the adapter. -/
inductive CountOutcome
  | ok (n : Int)
  | retErr (e : GoErr)
  | panicked (e : GoErr)
deriving DecidableEq

/-- The harness-visible outcome of `writerV1Count`. -/
def countToOutcome (r : Except GoErr (Int × Option GoErr)) : CountOutcome :=
  match r with
  | Except.error p => CountOutcome.panicked p
  | Except.ok (_, some e) => CountOutcome.retErr e
  | Except.ok (n, none) => CountOutcome.ok n

/-- The behaviour of the selected backend adapter, as the harness sees
it.  `submitOk` gives the backend's outcome for each submission
`(workerId, iteration)`; the adapters discard it (`writerV1Write`), so
no part of the run may depend on it. -/
structure WriterModel where
  submitOk : Int → Int → Bool
  countResult : String → CountOutcome
  closeResult : Except GoErr Unit

/-- Observable events of one harness run. -/
inductive REvent
  /-- The computation `expected := threadsCount * secondsCount *
  lineProtocolsCount` (main.go line 53). -/
  | expectedComputed (v : Int)
  /-- `go doLoad(...)` for worker `id`, together with that worker's
  trace. -/
  | workerStarted (id : Int) (tr : List WEvent)
  /-- The deadline timer's single `close(stopExecution)`. -/
  | stopSignaled
  /-- `writer.Count(measurementName)`. -/
  | countCalled (label : String)
  /-- `writer.Close()`. -/
  | closeCalled
deriving DecidableEq

/-- The data a successful run reports (the printed expected size and,
when counting was not skipped, the observed total). -/
structure RunResult where
  expected : Int
  total : Option Int
deriving DecidableEq

/-- The run configuration obtained from the flags (the fields the
harness core consumes; `batchSize`, `token` and the writer type are
opaque adapter configuration, absorbed into `WriterModel`). -/
structure Config where
  threadsCount : Int
  secondsCount : Int
  lineProtocolsCount : Int
  skipCount : Bool
  measurementName : String

/-- Wrap-around of Go's 64-bit signed `int`. -/
def wrap64 (x : Int) : Int :=
  (x + 2 ^ 63) % 2 ^ 64 - 2 ^ 63

/-- Go `int` multiplication. -/
def goMul (a b : Int) : Int :=
  wrap64 (a * b)

/-- Line 53: `expected := (*threadsCount) * (*secondsCount) *
(*lineProtocolsCount)`. -/
def runExpected (cfg : Config) : Int :=
  goMul (goMul cfg.threadsCount cfg.secondsCount) cfg.lineProtocolsCount

/-- `main` after flag parsing, sequentialized: computes `expected`,
spawns the workers (`wg.Add`, panicking on a negative count, then one
`go doLoad` per worker), lets the deadline timer perform its single
`close(stopExecution)` and waits for all workers (`wg.Wait`); then, if
counting is not skipped, calls `Count` — panicking on a returned error
(which skips `Close`: `main` has no `defer`) — and prints the rates,
where `total / *secondsCount` panics when `secondsCount` is zero;
finally calls `Close`, panicking on error.  `stops id` is the stop
schedule observed by worker `id` (scheduling nondeterminism is
quantified outside this definition).  Prints other than the listed
events are not modelled. -/
def runMain (cfg : Config) (stops : Int → Nat → Bool) (w : WriterModel) :
    List REvent × Except GoErr RunResult :=
  let expected := runExpected cfg
  let pre := [REvent.expectedComputed expected]
  if cfg.threadsCount < 0 then
    (pre, Except.error "sync: negative WaitGroup counter")
  else
    let workers := (List.range cfg.threadsCount.toNat).map fun k : Nat =>
      REvent.workerStarted ((k : Int) + 1)
        (doLoad (stops ((k : Int) + 1)) ((k : Int) + 1)
          cfg.secondsCount cfg.lineProtocolsCount)
    let evs := pre ++ workers ++ [REvent.stopSignaled]
    if cfg.skipCount then
      match w.closeResult with
      | Except.error e => (evs ++ [REvent.closeCalled], Except.error e)
      | Except.ok _ => (evs ++ [REvent.closeCalled], Except.ok ⟨expected, none⟩)
    else
      let evs2 := evs ++ [REvent.countCalled cfg.measurementName]
      match w.countResult cfg.measurementName with
      | CountOutcome.panicked e => (evs2, Except.error e)
      | CountOutcome.retErr e => (evs2, Except.error e)
      | CountOutcome.ok total =>
        if cfg.secondsCount = 0 then
          (evs2, Except.error "runtime error: integer divide by zero")
        else
          match w.closeResult with
          | Except.error e => (evs2 ++ [REvent.closeCalled], Except.error e)
          | Except.ok _ =>
            (evs2 ++ [REvent.closeCalled], Except.ok ⟨expected, some total⟩)

/-! ### Helper lemmas about the harness run -/

theorem wrap64_eq_self {x : Int} (h1 : -(2 ^ 63) ≤ x) (h2 : x < 2 ^ 63) :
    wrap64 x = x := by
  unfold wrap64
  omega

/-- Whatever the adapter and the scheduling, the trace of a run (with a
nonnegative worker count) starts with the `expected` computation. -/
theorem runMain_head (cfg : Config) (stops : Int → Nat → Bool)
    (w : WriterModel) (h : ¬ cfg.threadsCount < 0) :
    (runMain cfg stops w).1.head?
      = some (REvent.expectedComputed (runExpected cfg)) := by
  unfold runMain
  rw [if_neg h]
  dsimp only
  split
  · split <;> rfl
  · split <;> first | rfl | (split <;> first | rfl | (split <;> rfl))

/-- C1: For every valid RunConfig (positive worker count, duration and
ticks-per-second-per-worker, product within `int` range), the expected
tick count equals `threadsCount * secondsCount * lineProtocolsCount`; it
is computed from the configuration alone — the very first event of the
run trace, before any `workerStarted` event, identical for every stop
schedule and every writer behaviour — hence independent of the outcome
of any submission. -/
theorem c1_expected_is_config_product (cfg : Config)
    (h1 : 0 < cfg.threadsCount) (h2 : 0 < cfg.secondsCount)
    (h3 : 0 < cfg.lineProtocolsCount)
    (hb : cfg.threadsCount * cfg.secondsCount * cfg.lineProtocolsCount
      < 2 ^ 63) :
    runExpected cfg
      = cfg.threadsCount * cfg.secondsCount * cfg.lineProtocolsCount
    ∧ ∀ (stops : Int → Nat → Bool) (w : WriterModel),
        (runMain cfg stops w).1.head?
          = some (REvent.expectedComputed
              (cfg.threadsCount * cfg.secondsCount * cfg.lineProtocolsCount)) := by
  have hts : 0 < cfg.threadsCount * cfg.secondsCount := mul_pos h1 h2
  have hle : cfg.threadsCount * cfg.secondsCount
      ≤ cfg.threadsCount * cfg.secondsCount * cfg.lineProtocolsCount := by
    nlinarith
  have hpos : 0 < cfg.threadsCount * cfg.secondsCount * cfg.lineProtocolsCount :=
    mul_pos hts h3
  have hinner : wrap64 (cfg.threadsCount * cfg.secondsCount)
      = cfg.threadsCount * cfg.secondsCount :=
    wrap64_eq_self (by omega) (by omega)
  have he : runExpected cfg
      = cfg.threadsCount * cfg.secondsCount * cfg.lineProtocolsCount := by
    unfold runExpected goMul
    rw [hinner]
    exact wrap64_eq_self (by omega) hb
  refine ⟨he, fun stops w => ?_⟩
  rw [runMain_head cfg stops w (by omega), he]

theorem c1_expected_is_config_product_witness :
    (0 : Int) < 2 ∧ (0 : Int) < 3 ∧ (0 : Int) < 5
    ∧ ((2 * 3 * 5 : Int) < 2 ^ 63)
    ∧ runExpected ⟨2, 3, 5, false, "m"⟩ = 2 * 3 * 5
    ∧ (runMain ⟨2, 3, 5, false, "m"⟩ (fun _ _ => false)
          ⟨fun _ _ => true, fun _ => CountOutcome.ok 30, Except.ok ()⟩).1.head?
        = some (REvent.expectedComputed (2 * 3 * 5)) := by
  refine ⟨by decide, by decide, by decide, by decide, ?_⟩
  have h := c1_expected_is_config_product ⟨2, 3, 5, false, "m"⟩
    (by decide) (by decide) (by decide) (by decide)
  exact ⟨h.1, h.2 (fun _ _ => false)
    ⟨fun _ _ => true, fun _ => CountOutcome.ok 30, Except.ok ()⟩⟩

/-- C2 counterexample: a run in which counting is not skipped and the
Count operation returns an error does terminate with the fatal query
error and never assembles a RunResult, but contrary to the claim the
Backend Port Close operation is not invoked at all: `main` panics on the
count error and has no `defer`, so `writer.Close()` on line 122 is never
reached. -/
theorem c2_counterexample :
    (runMain ⟨1, 1, 1, false, "m"⟩ (fun _ _ => false)
        ⟨fun _ _ => true, fun _ => CountOutcome.retErr "query failed",
          Except.ok ()⟩).2
      = Except.error "query failed"
    ∧ REvent.closeCalled ∉
        (runMain ⟨1, 1, 1, false, "m"⟩ (fun _ _ => false)
          ⟨fun _ _ => true, fun _ => CountOutcome.retErr "query failed",
            Except.ok ()⟩).1 := by
  exact ⟨rfl, by decide⟩

/-- C2 (amended): For every run in which counting is not skipped and the
Count operation returns an error, the run terminates via the Failed
state with the fatal QueryError (the returned error is panicked), a
RunResult is never assembled — and the Backend Port's Close operation is
never invoked: the panic bypasses the close on line 122. -/
theorem c2_count_error_skips_close (cfg : Config)
    (stops : Int → Nat → Bool) (w : WriterModel) (e : GoErr)
    (h0 : ¬ cfg.threadsCount < 0) (h1 : cfg.skipCount = false)
    (h2 : w.countResult cfg.measurementName = CountOutcome.retErr e) :
    (runMain cfg stops w).2 = Except.error e
    ∧ REvent.closeCalled ∉ (runMain cfg stops w).1 := by
  unfold runMain
  rw [if_neg h0]
  dsimp only
  rw [h1]
  simp only [Bool.false_eq_true, if_false, h2]
  refine ⟨trivial, ?_⟩
  intro hmem
  simp only [List.mem_append, List.mem_map, List.mem_singleton,
    List.mem_cons, List.not_mem_nil] at hmem
  rcases hmem with ((h | ⟨k, _, h⟩) | h) | h <;> simp at h

theorem c2_count_error_skips_close_witness :
    ¬ (2 : Int) < 0
    ∧ (runMain ⟨2, 1, 1, false, "w"⟩ (fun _ _ => false)
          ⟨fun _ _ => true, fun _ => CountOutcome.retErr "boom",
            Except.ok ()⟩).2
        = Except.error "boom"
    ∧ REvent.closeCalled ∉
        (runMain ⟨2, 1, 1, false, "w"⟩ (fun _ _ => false)
          ⟨fun _ _ => true, fun _ => CountOutcome.retErr "boom",
            Except.ok ()⟩).1 := by
  have h := c2_count_error_skips_close ⟨2, 1, 1, false, "w"⟩
    (fun _ _ => false)
    ⟨fun _ _ => true, fun _ => CountOutcome.retErr "boom", Except.ok ()⟩
    "boom" (by decide) rfl rfl
  exact ⟨by decide, h.1, h.2⟩

/-- C3 counterexample: under the invalid configuration
`threadsCount = 5, secondsCount = 0, lineProtocolsCount = 3` (the
duration is not a positive integer), the run does not fail with any
ConfigError — it completes normally — and worker 1 is started (its trace
is empty since its loop bound is 0).  `main` performs no configuration
validation at all. -/
theorem c3_counterexample :
    (runMain ⟨5, 0, 3, true, "m"⟩ (fun _ _ => false)
        ⟨fun _ _ => true, fun _ => CountOutcome.ok 0, Except.ok ()⟩).2
      = Except.ok ⟨0, none⟩
    ∧ REvent.workerStarted 1 [] ∈
        (runMain ⟨5, 0, 3, true, "m"⟩ (fun _ _ => false)
          ⟨fun _ _ => true, fun _ => CountOutcome.ok 0, Except.ok ()⟩).1 := by
  exact ⟨rfl, by decide⟩

/-- With a nonnegative worker count, every run trace — whatever the
branch taken afterwards — is the `expected` computation followed by all
spawned workers, the stop signal, and some tail. -/
theorem runMain_trace_shape (cfg : Config) (stops : Int → Nat → Bool)
    (w : WriterModel) (h0 : ¬ cfg.threadsCount < 0) :
    ∃ tail,
      (runMain cfg stops w).1
        = REvent.expectedComputed (runExpected cfg) ::
            (((List.range cfg.threadsCount.toNat).map fun k : Nat =>
                REvent.workerStarted ((k : Int) + 1)
                  (doLoad (stops ((k : Int) + 1)) ((k : Int) + 1)
                    cfg.secondsCount cfg.lineProtocolsCount))
              ++ REvent.stopSignaled :: tail) := by
  unfold runMain
  rw [if_neg h0]
  dsimp only
  split
  · split <;> exact ⟨[REvent.closeCalled], by simp⟩
  · split
    · exact ⟨[REvent.countCalled cfg.measurementName], by simp⟩
    · exact ⟨[REvent.countCalled cfg.measurementName], by simp⟩
    · split
      · exact ⟨[REvent.countCalled cfg.measurementName], by simp⟩
      · split <;>
          exact ⟨[REvent.countCalled cfg.measurementName,
            REvent.closeCalled], by simp⟩

/-- C3 (amended): The Harness performs no configuration validation and
has no ConfigError.  With a negative worker count the run aborts only
through Go's `sync.WaitGroup` panic, before any worker starts.  With a
nonnegative worker count, all `threadsCount` configured workers are
started even when the duration or the ticks-per-second-per-worker is
not a positive integer, and the run then completes normally whenever
the backend count and close operations succeed — except that a run with
`secondsCount = 0` and counting enabled panics at the rate division
(integer divide by zero), which is still not a ConfigError surfaced
before workers start. -/
theorem c3_no_config_validation (cfg : Config)
    (stops : Int → Nat → Bool) (w : WriterModel) :
    (cfg.threadsCount < 0 →
      (runMain cfg stops w).2
          = Except.error "sync: negative WaitGroup counter"
      ∧ (runMain cfg stops w).1
          = [REvent.expectedComputed (runExpected cfg)])
    ∧ (0 ≤ cfg.threadsCount → ∀ i : Int, 1 ≤ i → i ≤ cfg.threadsCount →
        REvent.workerStarted i
            (doLoad (stops i) i cfg.secondsCount cfg.lineProtocolsCount)
          ∈ (runMain cfg stops w).1)
    ∧ (0 ≤ cfg.threadsCount → cfg.skipCount = true →
        w.closeResult = Except.ok () →
        (runMain cfg stops w).2 = Except.ok ⟨runExpected cfg, none⟩)
    ∧ (0 ≤ cfg.threadsCount → cfg.skipCount = false → ∀ n : Int,
        w.countResult cfg.measurementName = CountOutcome.ok n →
        cfg.secondsCount = 0 →
        (runMain cfg stops w).2
          = Except.error "runtime error: integer divide by zero")
    ∧ (0 ≤ cfg.threadsCount → cfg.skipCount = false → ∀ n : Int,
        w.countResult cfg.measurementName = CountOutcome.ok n →
        cfg.secondsCount ≠ 0 → w.closeResult = Except.ok () →
        (runMain cfg stops w).2 = Except.ok ⟨runExpected cfg, some n⟩) := by
  refine ⟨fun hneg => ?_, fun h0 i h1 h2 => ?_, fun h0 hskip hcl => ?_,
    fun h0 hskip n hcnt hsec => ?_, fun h0 hskip n hcnt hsec hcl => ?_⟩
  · unfold runMain
    rw [if_pos hneg]
    exact ⟨rfl, rfl⟩
  · obtain ⟨tail, ht⟩ := runMain_trace_shape cfg stops w (by omega)
    rw [ht]
    have hk : (((i - 1).toNat : Int)) + 1 = i := by omega
    refine List.mem_cons_of_mem _ (List.mem_append_left _ ?_)
    refine List.mem_map.mpr ⟨(i - 1).toNat, List.mem_range.mpr (by omega), ?_⟩
    rw [hk]
  · unfold runMain
    rw [if_neg (by omega)]
    dsimp only
    rw [hskip]
    simp only [if_true, hcl]
  · unfold runMain
    rw [if_neg (by omega)]
    dsimp only
    rw [hskip]
    simp only [Bool.false_eq_true, if_false, hcnt]
    rw [if_pos hsec]
  · unfold runMain
    rw [if_neg (by omega)]
    dsimp only
    rw [hskip]
    simp only [Bool.false_eq_true, if_false, hcnt]
    rw [if_neg hsec]
    simp only [hcl]

theorem c3_no_config_validation_witness :
    (runMain ⟨-2, 1, 1, false, "m"⟩ (fun _ _ => false)
          ⟨fun _ _ => true, fun _ => CountOutcome.ok 5, Except.ok ()⟩).2
        = Except.error "sync: negative WaitGroup counter"
    ∧ REvent.workerStarted 3 (doLoad (fun _ => false) 3 0 7)
        ∈ (runMain ⟨3, 0, 7, true, "x"⟩ (fun _ _ => false)
            ⟨fun _ _ => true, fun _ => CountOutcome.ok 5, Except.ok ()⟩).1
    ∧ (runMain ⟨3, 0, 7, true, "x"⟩ (fun _ _ => false)
          ⟨fun _ _ => true, fun _ => CountOutcome.ok 5, Except.ok ()⟩).2
        = Except.ok ⟨0, none⟩
    ∧ (runMain ⟨2, 0, 3, false, "m"⟩ (fun _ _ => false)
          ⟨fun _ _ => true, fun _ => CountOutcome.ok 5, Except.ok ()⟩).2
        = Except.error "runtime error: integer divide by zero"
    ∧ (runMain ⟨2, 4, 3, false, "m"⟩ (fun _ _ => false)
          ⟨fun _ _ => true, fun _ => CountOutcome.ok 5, Except.ok ()⟩).2
        = Except.ok ⟨24, some 5⟩ := by
  have hA := c3_no_config_validation ⟨-2, 1, 1, false, "m"⟩
    (fun _ _ => false)
    ⟨fun _ _ => true, fun _ => CountOutcome.ok 5, Except.ok ()⟩
  have hB := c3_no_config_validation ⟨3, 0, 7, true, "x"⟩
    (fun _ _ => false)
    ⟨fun _ _ => true, fun _ => CountOutcome.ok 5, Except.ok ()⟩
  have hC := c3_no_config_validation ⟨2, 0, 3, false, "m"⟩
    (fun _ _ => false)
    ⟨fun _ _ => true, fun _ => CountOutcome.ok 5, Except.ok ()⟩
  have hD := c3_no_config_validation ⟨2, 4, 3, false, "m"⟩
    (fun _ _ => false)
    ⟨fun _ _ => true, fun _ => CountOutcome.ok 5, Except.ok ()⟩
  refine ⟨(hA.1 (by decide)).1, ?_, hB.2.2.1 (by decide) rfl rfl,
    hC.2.2.2.1 (by decide) rfl 5 rfl rfl,
    hD.2.2.2.2 (by decide) rfl 5 rfl (by decide) rfl⟩
  exact hB.2.1 (by decide) 3 (by decide) (by decide)

/-- C4: For every worker, every stop schedule and every configuration,
(a) every individual submission in the worker's trace is immediately
preceded by a poll of the StopSignal that observed no signal — the
signal is checked before each individual submission, not only once per
second — and (b) once a poll observes the signal it is the last event of
the trace: the worker neither issues another submission nor starts a new
per-second batch (nor does anything else) after observing the signal. -/
theorem c4_stop_checked_before_each_submission (stop : Nat → Bool)
    (id S L : Int) :
    (∀ (pre : List WEvent) (j : Int) (post : List WEvent),
      doLoad stop id S L = pre ++ WEvent.write j :: post →
        ∃ pre2, pre = pre2 ++ [WEvent.check false])
    ∧ (∀ (pre post : List WEvent),
        doLoad stop id S L = pre ++ WEvent.check true :: post → post = []) := by
  have hp : Polite (doLoad stop id S L) := outerLoop_polite S.toNat stop id L 0 1
  exact ⟨fun pre j post he => polite_write_guard hp pre j post he,
    fun pre post he => polite_stop_last hp pre post he⟩

/-- C6: Within a single worker and run, the submitted tick sequence
numbers are strictly increasing in submission order (hence never reused
within the run), and they advance by `L` (= ticks-per-second-per-worker)
each simulated second from the worker-local base `L`: a never-stopped
worker submits exactly `ticksFrom L (S.toNat * L.toNat)` — the
consecutive numbers `L, L+1, …` with second `i` covering
`[i*L, (i+1)*L)` — and under any stop schedule the submitted numbers are
a prefix of that sequence. -/
theorem c6_seq_numbers_strictly_increasing (stop : Nat → Bool)
    (id S L : Int) (hL : 0 ≤ L) :
    writes (doLoad (fun _ => false) id S L) = ticksFrom L (S.toNat * L.toNat)
    ∧ writes (doLoad stop id S L) <+: ticksFrom L (S.toNat * L.toNat)
    ∧ (writes (doLoad stop id S L)).Pairwise (· < ·)
    ∧ (writes (doLoad stop id S L)).Nodup := by
  have hfull := outerLoop_writes_never S.toNat id L 0 1 hL
  rw [one_mul] at hfull
  have hpre := outerLoop_writes_isPre S.toNat stop id L 0 1 hL
  rw [one_mul] at hpre
  have hpw : (writes (doLoad stop id S L)).Pairwise (· < ·) :=
    (ticksFrom_pairwise L (S.toNat * L.toNat)).sublist hpre.sublist
  exact ⟨hfull, hpre, hpw, hpw.imp ne_of_lt⟩

theorem c6_seq_numbers_strictly_increasing_witness :
    (0 : Int) ≤ 3
    ∧ writes (doLoad (fun _ => false) 1 2 3) = ticksFrom 3 6
    ∧ writes (doLoad (fun c => 4 ≤ c) 1 2 3) <+: ticksFrom 3 6
    ∧ (writes (doLoad (fun c => 4 ≤ c) 1 2 3)).Pairwise (· < ·)
    ∧ (writes (doLoad (fun c => 4 ≤ c) 1 2 3)).Nodup := by
  have h := c6_seq_numbers_strictly_increasing (fun c => decide (4 ≤ c)) 1 2 3
    (by decide)
  exact ⟨by decide, h.1, h.2.1, h.2.2.1, h.2.2.2⟩

/-- C5 counterexample: signaling the StopSignal a second time is not
harmless — `close` of an already-closed Go channel panics, so signaling
twice fails rather than having no additional effect. -/
theorem c5_counterexample :
    (do
      let ch ← closeChan ⟨false⟩
      closeChan ch : Except GoErr StopChan)
      = Except.error "close of closed channel" := rfl

/-- C5 (amended): The harness signals the StopSignal exactly once per
run (the deadline timer's single `close(stopExecution)`), and once
signaled the channel remains signaled — every receive is ready from then
on, and no operation un-closes it.  Signaling a second time, however, is
not idempotent-safe: `close` of a closed channel panics. -/
theorem c5_stop_signal_once (cfg : Config) (stops : Int → Nat → Bool)
    (w : WriterModel) (h0 : ¬ cfg.threadsCount < 0) :
    (runMain cfg stops w).1.count REvent.stopSignaled = 1
    ∧ closeChan ⟨false⟩ = Except.ok ⟨true⟩
    ∧ (∀ ch ch2 : StopChan, closeChan ch = Except.ok ch2 →
        chanReady ch2 = true)
    ∧ (∀ ch : StopChan, ch.closed = true →
        closeChan ch = Except.error "close of closed channel") := by
  refine ⟨?_, rfl, ?_, ?_⟩
  · unfold runMain
    rw [if_neg h0]
    dsimp only
    have hw : ((List.range cfg.threadsCount.toNat).map fun k : Nat =>
        REvent.workerStarted ((k : Int) + 1)
          (doLoad (stops ((k : Int) + 1)) ((k : Int) + 1)
            cfg.secondsCount cfg.lineProtocolsCount)).count
        REvent.stopSignaled = 0 := by
      rw [List.count_eq_zero]
      intro hmem
      simp only [List.mem_map] at hmem
      obtain ⟨k, _, hk⟩ := hmem
      simp at hk
    split
    · split <;> simp [List.count_append, List.count_cons, hw]
    · split
      · simp [List.count_append, List.count_cons, hw]
      · simp [List.count_append, List.count_cons, hw]
      · split
        · simp [List.count_append, List.count_cons, hw]
        · split <;> simp [List.count_append, List.count_cons, hw]
  · intro ch ch2 hc
    unfold closeChan at hc
    by_cases hcl : ch.closed
    · rw [if_pos hcl] at hc
      cases hc
    · rw [if_neg hcl] at hc
      cases hc
      rfl
  · intro ch hcl
    unfold closeChan
    rw [if_pos hcl]

theorem c5_stop_signal_once_witness :
    ¬ (1 : Int) < 0
    ∧ (runMain ⟨1, 1, 1, true, "m"⟩ (fun _ _ => false)
          ⟨fun _ _ => true, fun _ => CountOutcome.ok 0,
            Except.ok ()⟩).1.count REvent.stopSignaled = 1
    ∧ closeChan ⟨false⟩ = Except.ok ⟨true⟩ := by
  have h := c5_stop_signal_once ⟨1, 1, 1, true, "m"⟩ (fun _ _ => false)
    ⟨fun _ _ => true, fun _ => CountOutcome.ok 0, Except.ok ()⟩ (by decide)
  exact ⟨by decide, h.1, h.2.1⟩

/-- C7: For every run with `skipCount = true`, the Counting state is
never entered — no `Count` call appears in the trace for any label — and
a successful RunResult carries no observed count. -/
theorem c7_skip_count_never_counts (cfg : Config)
    (stops : Int → Nat → Bool) (w : WriterModel)
    (h1 : cfg.skipCount = true) :
    (∀ label : String,
      REvent.countCalled label ∉ (runMain cfg stops w).1)
    ∧ ∀ r : RunResult, (runMain cfg stops w).2 = Except.ok r →
        r.total = none := by
  unfold runMain
  by_cases h0 : cfg.threadsCount < 0
  · rw [if_pos h0]
    refine ⟨fun label hmem => by simp at hmem, fun r hr => by cases hr⟩
  · rw [if_neg h0]
    dsimp only
    rw [h1]
    simp only [if_true]
    split
    · refine ⟨fun label hmem => ?_, fun r hr => by cases hr⟩
      simp only [List.mem_append, List.mem_map, List.mem_singleton,
        List.mem_cons, List.not_mem_nil] at hmem
      rcases hmem with ((h | ⟨k, _, h⟩) | h) | h <;> simp at h
    · refine ⟨fun label hmem => ?_, fun r hr => by cases hr; rfl⟩
      simp only [List.mem_append, List.mem_map, List.mem_singleton,
        List.mem_cons, List.not_mem_nil] at hmem
      rcases hmem with ((h | ⟨k, _, h⟩) | h) | h <;> simp at h

theorem c7_skip_count_never_counts_witness :
    (⟨1, 2, 3, true, "m"⟩ : Config).skipCount = true
    ∧ REvent.countCalled "m" ∉
        (runMain ⟨1, 2, 3, true, "m"⟩ (fun _ _ => false)
          ⟨fun _ _ => true, fun _ => CountOutcome.ok 6, Except.ok ()⟩).1
    ∧ ∀ r : RunResult,
        (runMain ⟨1, 2, 3, true, "m"⟩ (fun _ _ => false)
            ⟨fun _ _ => true, fun _ => CountOutcome.ok 6,
              Except.ok ()⟩).2 = Except.ok r →
          r.total = none := by
  have h := c7_skip_count_never_counts ⟨1, 2, 3, true, "m"⟩
    (fun _ _ => false)
    ⟨fun _ _ => true, fun _ => CountOutcome.ok 6, Except.ok ()⟩ rfl
  exact ⟨rfl, h.1 "m", h.2⟩

/-- C8 counterexample: a submission that fails at the Backend Port is
swallowed, but contrary to the claim it is not logged: at the concrete
failed submission below, `WriterV1.Write` emits exactly the single write
attempt and no `logged` event — the error branch
`if err := p.influx.Write(bp); err != nil { }` is an empty block. -/
theorem c8_counterexample :
    writerV1Write (some "write refused") 7 "sensor" 42
      = [AEvent.batchWrite 7 42] := rfl

/-- C8 (amended): For every submission that fails at the Backend Port,
the failure never escapes the Worker: it is swallowed silently (not
logged — the adapter's error branch is empty), the submission is never
retried (exactly one backend write attempt per tick, whatever the
outcome), and the run as a whole is unaffected by submission outcomes:
two writer behaviours differing only in their submission outcomes yield
identical runs, so the run completes despite any number of submission
failures. -/
theorem c8_submission_failures_swallowed :
    (∀ (writeFailed : Option GoErr) (id : Int) (m : String) (it : Int),
      writerV1Write writeFailed id m it = [AEvent.batchWrite id it])
    ∧ ∀ (cfg : Config) (stops : Int → Nat → Bool)
        (sub sub2 : Int → Int → Bool) (cr : String → CountOutcome)
        (cl : Except GoErr Unit),
        runMain cfg stops ⟨sub, cr, cl⟩ = runMain cfg stops ⟨sub2, cr, cl⟩ := by
  constructor
  · intro writeFailed id m it
    cases writeFailed <;> rfl
  · intro cfg stops sub sub2 cr cl
    rfl

/-- Query outcomes in which either the transport failed or the response
carries a response-level error — the cases `WriterV1.Count` guards with
`err == nil && response.Error() == nil`. -/
def v1QueryFailed : QueryOutcome → Bool
  | QueryOutcome.fail _ => true
  | QueryOutcome.ok resp => resp.err.isSome

/-- A genuine successful response whose counted value is zero. -/
def v1ZeroResponse : V1Response :=
  ⟨none, [⟨[⟨[["1970-01-01T00:00:00Z", "0"]]⟩]⟩]⟩

/-- C9: Whenever the backend query fails or the response carries an
error, `WriterV1.Count` returns `(0, nil)` — exactly the value a genuine
observed count of zero produces — so the failure is indistinguishable
from a zero count and surfaces to the Harness as the successful count 0,
never as a fatal QueryError. -/
theorem c9_v1_count_error_becomes_zero (q : QueryOutcome)
    (h : v1QueryFailed q = true) :
    writerV1Count q = Except.ok (0, none)
    ∧ writerV1Count q = writerV1Count (QueryOutcome.ok v1ZeroResponse)
    ∧ countToOutcome (writerV1Count q) = CountOutcome.ok 0 := by
  have h1 : writerV1Count q = Except.ok (0, none) := by
    cases q with
    | fail e => rfl
    | ok resp =>
      simp only [v1QueryFailed] at h
      simp only [writerV1Count, h, if_true]
  exact ⟨h1, by rw [h1]; rfl, by rw [h1]; rfl⟩

theorem c9_v1_count_error_becomes_zero_witness :
    v1QueryFailed (QueryOutcome.fail "connection refused") = true
    ∧ writerV1Count (QueryOutcome.fail "connection refused")
        = Except.ok (0, none)
    ∧ writerV1Count (QueryOutcome.fail "connection refused")
        = writerV1Count (QueryOutcome.ok v1ZeroResponse)
    ∧ countToOutcome (writerV1Count (QueryOutcome.fail "connection refused"))
        = CountOutcome.ok 0 := by
  have h := c9_v1_count_error_becomes_zero
    (QueryOutcome.fail "connection refused") rfl
  exact ⟨rfl, h.1, h.2.1, h.2.2⟩

/-- C10: When the count query succeeds (no transport error, no
response-level error) but the result set is empty — the access chain
`Results[0].Series[0].Values[0][1]` hits an out-of-range index —
`WriterV1.Count` panics instead of returning a count, and the Harness's
counting phase aborts with that panic rather than reporting an observed
count of zero. -/
theorem c10_v1_count_empty_result_panics (resp : V1Response)
    (h1 : resp.err = none) (h2 : v1Access resp = none) :
    writerV1Count (QueryOutcome.ok resp)
      = Except.error "runtime error: index out of range"
    ∧ countToOutcome (writerV1Count (QueryOutcome.ok resp))
      = CountOutcome.panicked "runtime error: index out of range"
    ∧ ∀ (cfg : Config) (stops : Int → Nat → Bool)
        (sub : Int → Int → Bool) (cl : Except GoErr Unit),
        cfg.skipCount = false → ¬ cfg.threadsCount < 0 →
        (runMain cfg stops
            ⟨sub,
              fun _ => countToOutcome (writerV1Count (QueryOutcome.ok resp)),
              cl⟩).2
          = Except.error "runtime error: index out of range" := by
  have hp : writerV1Count (QueryOutcome.ok resp)
      = Except.error "runtime error: index out of range" := by
    simp only [writerV1Count, h1, Option.isSome_none, Bool.false_eq_true,
      if_false, h2]
  refine ⟨hp, by rw [hp]; rfl, fun cfg stops sub cl hskip h0 => ?_⟩
  unfold runMain
  rw [if_neg h0]
  dsimp only
  rw [hskip]
  simp only [Bool.false_eq_true, if_false, hp]
  rfl

theorem c10_v1_count_empty_result_panics_witness :
    (⟨none, []⟩ : V1Response).err = none
    ∧ v1Access ⟨none, []⟩ = none
    ∧ writerV1Count (QueryOutcome.ok ⟨none, []⟩)
        = Except.error "runtime error: index out of range"
    ∧ (⟨1, 1, 1, false, "m"⟩ : Config).skipCount = false
    ∧ (runMain ⟨1, 1, 1, false, "m"⟩ (fun _ _ => false)
          ⟨fun _ _ => true,
            fun _ => countToOutcome (writerV1Count (QueryOutcome.ok ⟨none, []⟩)),
            Except.ok ()⟩).2
        = Except.error "runtime error: index out of range" := by
  have h := c10_v1_count_empty_result_panics ⟨none, []⟩ rfl rfl
  exact ⟨rfl, rfl, h.1,
    rfl, h.2.2 ⟨1, 1, 1, false, "m"⟩ (fun _ _ => false) (fun _ _ => true)
      (Except.ok ()) rfl (by decide)⟩

end ClientVsHttp
